import Mathlib

/-
Verification of the swingdash data-normalization and comparative-statistics
pipeline (cleaning.py, config.py, standardise.py, analytics.py).

Shallow embedding conventions:
- pandas/numpy floating point cells are modelled as values in Option ℚ, with
  none standing for NaN (missing).  NaN comparisons in numpy are False; the
  embedding makes that explicit at every comparison site.
- A cleaned dataset (cleaning.py) is modelled column-oriented, mirroring how
  pandas stores per-column dtypes: a column is either numeric, text or
  datetime valued, and a DataFrame is a row count plus named columns.
- The outlier filter and the balancing functions are modelled row-oriented
  (a list of rows plus a column-name list), since they only select rows.
- Seeded pandas sampling (df.sample with random_state) is modelled by a
  concrete deterministic pseudo-random selection without replacement.
-/

open scoped List

namespace Swingdash

/- Batteries marks the rational-number field operations irreducible, which
blocks the evaluation of concrete witness instances by decide; restore the
default reducibility for this development. -/
attribute [local semireducible] Rat.add Rat.mul Rat.sub Rat.inv

/-! ## config.py -/

/-- BETTER_DIRECTION from config.py: improvement polarity per metric,
with .get(metric, 0) defaulting to 0 for unknown metrics. -/
def BETTER_DIRECTION (m : String) : Int :=
  if m = "Club Speed" then 1
  else if m = "Ball Speed" then 1
  else if m = "Smash Factor" then 1
  else if m = "Launch Angle" then 0
  else if m = "Spin Rate" then 0
  else if m = "Apex Height" then 0
  else if m = "Carry Distance" then 1
  else if m = "Total Distance" then 1
  else if m = "Carry Deviation Distance" then -1
  else if m = "Total Deviation Distance" then -1
  else if m = "Attack Angle" then 0
  else if m = "Club Path" then 0
  else if m = "Club Face" then 0
  else if m = "Face to Path" then 0
  else if m = "Spin Axis" then 0
  else 0

/-- CANDIDATE_NUMERIC from config.py: the columns eligible for numeric
coercion in preprocess. -/
def CANDIDATE_NUMERIC : List String :=
  ["Club Speed", "Attack Angle", "Club Path", "Club Face", "Face to Path",
   "Ball Speed", "Smash Factor", "Launch Angle", "Launch Direction",
   "Backspin", "Sidespin", "Spin Rate", "Spin Rate Type", "Spin Axis",
   "Apex Height", "Carry Distance", "Carry Deviation Angle",
   "Carry Deviation Distance", "Total Distance", "Total Deviation Angle",
   "Total Deviation Distance", "Air Density", "Temperature", "Air Pressure",
   "Relative Humidity"]

/-! ## Cleaning data model

A pandas DataFrame as used by cleaning.py: a row count and an ordered
association list of named, dtype-homogeneous columns. -/

/-- A parsed timestamp as produced by pd.to_datetime (tz is an offset in
minutes when the source string carried one). -/
structure PDateTime where
  year : Nat
  month : Nat
  day : Nat
  hour : Nat
  minute : Nat
  second : Nat
  tz : Option Int
deriving DecidableEq, Repr

/-- A pandas column: float dtype (cells are NaN-or-rational), object dtype
holding strings (cells are NaN-or-string), or datetime dtype. -/
inductive Col where
  | numeric (vals : List (Option ℚ))
  | text (vals : List (Option String))
  | dates (vals : List (Option PDateTime))
deriving DecidableEq, Repr

/-- A pandas DataFrame: row count plus named columns (in column order). -/
structure DataFrame where
  nrows : Nat
  cols : List (String × Col)
deriving DecidableEq, Repr

def getColList : List (String × Col) → String → Option Col
  | [], _ => none
  | (m, c) :: rest, n => if m = n then some c else getColList rest n

/-- Column lookup, df[name]. -/
def getCol (df : DataFrame) (n : String) : Option Col :=
  getColList df.cols n

def setColList : List (String × Col) → String → Col → List (String × Col)
  | [], n, c => [(n, c)]
  | (m, c0) :: rest, n, c =>
    if m = n then (m, c) :: rest else (m, c0) :: setColList rest n c

/-- Column assignment, df[name] = col: replaces the column in place when the
name exists, appends a new column otherwise. -/
def setCol (df : DataFrame) (n : String) (c : Col) : DataFrame :=
  ⟨df.nrows, setColList df.cols n c⟩

/-- Membership test, name in df.columns. -/
def hasCol (df : DataFrame) (n : String) : Bool :=
  (getCol df n).isSome

def colTail : Col → Col
  | .numeric vs => .numeric vs.tail
  | .text vs => .text vs.tail
  | .dates vs => .dates vs.tail

/-- df.iloc[1:].reset_index(drop=True): drop the first row. -/
def dropFirstRow (df : DataFrame) : DataFrame :=
  ⟨df.nrows - 1, df.cols.map (fun p => (p.1, colTail p.2))⟩

/-! ## Python string helpers for cleaning.py -/

/-- The characters matched by the regex class backslash-s in Python. -/
def isPySpace (c : Char) : Bool :=
  c = ' ' ∨ c = '\t' ∨ c = '\n' ∨ c = '\x0d' ∨ c = '\x0b' ∨ c = '\x0c'

/-- Strip leading and trailing regex whitespace. -/
def pyStrip (cs : List Char) : List Char :=
  ((cs.dropWhile isPySpace).reverse.dropWhile isPySpace).reverse

/-- The anchored bracketed-units check from drop_units_row_if_present:
the string matches the units regex (leading and trailing whitespace, then
an opening bracket, any non-newline characters, a closing bracket) exactly
when the whitespace-trimmed string starts with an opening bracket, ends
with a closing bracket, has length at least two, and its interior holds no
newline. -/
def matchesUnitsPattern (s : String) : Bool :=
  match pyStrip s.toList with
  | [] => false
  | c :: rest =>
    c = '[' ∧ rest ≠ [] ∧ rest.getLast? = some ']' ∧
      rest.dropLast.all (fun x => ¬ x = '\n')

/-- One decimal digit character. -/
def digitCh (n : Nat) : Char :=
  match n % 10 with
  | 0 => '0' | 1 => '1' | 2 => '2' | 3 => '3' | 4 => '4'
  | 5 => '5' | 6 => '6' | 7 => '7' | 8 => '8' | _ => '9'

def natStrAux : Nat → Nat → List Char
  | 0, _ => []
  | f + 1, n => if n < 10 then [digitCh n] else natStrAux f (n / 10) ++ [digitCh n]

/-- Decimal digits of a natural number, most significant first. -/
def natStr (n : Nat) : List Char :=
  natStrAux (n + 1) n

/-- Rendering of a rational cell value as a plain sign-and-digits string
(the stand-in for Python str() on a float; its only load-bearing property
is that it consists of sign, digit, dot and slash characters, so it can
never match the bracketed-units regex). -/
def ratStr (q : ℚ) : String :=
  ⟨(if q < 0 then ['-'] else []) ++ natStr q.num.natAbs ++
    (if q.den = 1 then [] else '.' :: natStr q.den)⟩

/-- str() of a float cell: NaN prints as a three-letter word. -/
def numCellStr (v : Option ℚ) : String :=
  match v with
  | none => "nan"
  | some q => ratStr q

/-- Rendering of a parsed timestamp (stand-in for str() on a pandas
Timestamp: digits, hyphens, colons and spaces only). -/
def dateStr (d : PDateTime) : String :=
  ⟨natStr d.year ++ '-' :: natStr d.month ++ '-' :: natStr d.day ++
    ' ' :: natStr d.hour ++ ':' :: natStr d.minute ++ ':' :: natStr d.second⟩

/-- str() of a datetime cell (NaT prints as a word). -/
def dateCellStr (v : Option PDateTime) : String :=
  match v with
  | none => "NaT"
  | some d => dateStr d

/-- str() of a text cell (NaN prints as a three-letter word). -/
def textCellStr (v : Option String) : String :=
  match v with
  | none => "nan"
  | some s => s

/-! ## Numeric parsing (pd.to_numeric on strings) -/

def digitVal (c : Char) : Option Nat :=
  if '0' ≤ c ∧ c ≤ '9' then some (c.toNat - 48) else none

def takeDigits : List Char → List Nat × List Char
  | [] => ([], [])
  | c :: rest =>
    match digitVal c with
    | some d => let p := takeDigits rest; (d :: p.1, p.2)
    | none => ([], c :: rest)

def digitsToNat (ds : List Nat) : Nat :=
  ds.foldl (fun a d => a * 10 + d) 0

def takeSign : List Char → Bool × List Char
  | '-' :: r => (true, r)
  | '+' :: r => (false, r)
  | cs => (false, cs)

/-- Parse a Python float literal (optional sign, digits with an optional
decimal point, optional exponent); anything else is NaN.  Models float()
as used by pd.to_numeric(errors="coerce"). -/
def parseNum (cs0 : List Char) : Option ℚ :=
  let s1 := takeSign cs0
  let ipr := takeDigits s1.2
  let fpr := match ipr.2 with
    | '.' :: r => takeDigits r
    | _ => ([], ipr.2)
  if ipr.1.isEmpty ∧ fpr.1.isEmpty then none
  else
    let mant : ℚ :=
      (digitsToNat ipr.1 : ℚ) + (digitsToNat fpr.1 : ℚ) / ((10 : ℚ) ^ fpr.1.length)
    let base : ℚ := (if s1.1 then -1 else 1) * mant
    match fpr.2 with
    | 'e' :: r =>
      let es := takeSign r
      let eds := takeDigits es.2
      if eds.1.isEmpty ∨ ¬ eds.2.isEmpty then none
      else some (base * (if es.1 then 1 / (10 : ℚ) ^ digitsToNat eds.1 else (10 : ℚ) ^ digitsToNat eds.1))
    | 'E' :: r =>
      let es := takeSign r
      let eds := takeDigits es.2
      if eds.1.isEmpty ∨ ¬ eds.2.isEmpty then none
      else some (base * (if es.1 then 1 / (10 : ℚ) ^ digitsToNat eds.1 else (10 : ℚ) ^ digitsToNat eds.1))
    | [] => some base
    | _ => none

/-! ## Unit-token stripping (the _UNIT_RE regex) -/

def charLowEq (p c : Char) : Bool := p = c.toLower

def matchLit : List Char → List Char → Option (List Char)
  | [], cs => some cs
  | _ :: _, [] => none
  | p :: ps, c :: cs => if charLowEq p c then matchLit ps cs else none

/-- The UNIT_PATTERNS alternation from config.py, in alternation order and
with each optional trailing letter expanded greedy-first (the regex engine
tries alternatives left to right at each position, case-insensitively). -/
def UNIT_LITERALS : List (List Char) :=
  [['m','p','h'], ['k','m','/','h'], ['k','p','h'], ['m','/','s'], ['r','p','m'],
   ['°'], ['d','e','g'], ['d','e','g','r','e','e','s'], ['d','e','g','r','e','e'],
   ['y','d','s'], ['y','d'], ['y','a','r','d','s'], ['y','a','r','d'],
   ['m'], ['c','m'], ['k','p','a'], ['p','a'], ['b','a','r'], ['p','s','i'],
   ['%'], [',']]

def tryPats : List (List Char) → List Char → Option (List Char)
  | [], _ => none
  | p :: ps, cs =>
    match matchLit p cs with
    | some rest => some rest
    | none => tryPats ps cs

def stripUnitsAux : Nat → List Char → List Char
  | 0, cs => cs
  | _ + 1, [] => []
  | f + 1, c :: rest =>
    match tryPats UNIT_LITERALS (c :: rest) with
    | some rest' => stripUnitsAux f rest'
    | none => c :: stripUnitsAux f rest

/-- s.str.replace(_UNIT_RE, "", regex=True): delete every non-overlapping
match of the unit alternation, scanning left to right. -/
def stripUnits (cs : List Char) : List Char :=
  stripUnitsAux cs.length cs

/-- The character class kept by the second replace: digits, dot, minus,
exponent letters and plus. -/
def isAllowedNumChar (c : Char) : Bool :=
  ('0' ≤ c ∧ c ≤ '9') ∨ c = '.' ∨ c = '-' ∨ c = 'e' ∨ c = 'E' ∨ c = '+'

/-- The text-cell cleaning chain of coerce_numeric_series: strip unit
tokens, drop all remaining disallowed characters, then parse. -/
def cleanNumStr (s : String) : Option ℚ :=
  parseNum ((stripUnits s.toList).filter isAllowedNumChar)

/-- coerce_numeric_series from cleaning.py: a numeric-dtype column passes
through astype(float) unchanged; any other column is stringified per cell,
unit-stripped, character-filtered and parsed, with parse failures NaN. -/
def coerce_numeric_series : Col → Col
  | .numeric vs => .numeric vs
  | .text vs => .numeric (vs.map (fun v => cleanNumStr (textCellStr v)))
  | .dates vs => .numeric (vs.map (fun v => cleanNumStr (dateCellStr v)))

/-- pd.to_numeric(s, errors="coerce") on a single string (leading and
trailing whitespace tolerated, as float() tolerates it). -/
def toNumericCell (s : String) : Option ℚ :=
  parseNum (pyStrip s.toList)

/-- Numeric stand-in for a timestamp under pd.to_numeric (models the
epoch conversion; its exact value is never load-bearing). -/
def dateNumeric (d : PDateTime) : ℚ :=
  (((d.year * 10000 + d.month * 100 + d.day) * 1000000 +
    d.hour * 10000 + d.minute * 100 + d.second : Nat) : ℚ)

/-- pd.to_numeric(column, errors="coerce"). -/
def toNumericCol : Col → List (Option ℚ)
  | .numeric vs => vs
  | .text vs => vs.map (fun v => match v with
      | none => none
      | some s => toNumericCell s)
  | .dates vs => vs.map (fun v => v.map dateNumeric)

/-! ## Date parsing (parse_date_series) -/

def takeNDigits : Nat → List Char → Option (Nat × List Char)
  | 0, cs => some (0, cs)
  | _ + 1, [] => none
  | n + 1, c :: cs =>
    match digitVal c with
    | none => none
    | some d =>
      match takeNDigits n cs with
      | none => none
      | some p => some (d * 10 ^ n + p.1, p.2)

def expectCh (c : Char) : List Char → Option (List Char)
  | [] => none
  | x :: xs => if x = c then some xs else none

/-- strptime core for the format Y-m-d H:M:S, with field validation. -/
def parseDateCore (cs : List Char) : Option (PDateTime × List Char) :=
  match takeNDigits 4 cs with
  | none => none
  | some (y, r1) =>
    match expectCh '-' r1 with
    | none => none
    | some r2 =>
      match takeNDigits 2 r2 with
      | none => none
      | some (mo, r3) =>
        match expectCh '-' r3 with
        | none => none
        | some r4 =>
          match takeNDigits 2 r4 with
          | none => none
          | some (d, r5) =>
            match expectCh ' ' r5 with
            | none => none
            | some r6 =>
              match takeNDigits 2 r6 with
              | none => none
              | some (h, r7) =>
                match expectCh ':' r7 with
                | none => none
                | some r8 =>
                  match takeNDigits 2 r8 with
                  | none => none
                  | some (mi, r9) =>
                    match expectCh ':' r9 with
                    | none => none
                    | some r10 =>
                      match takeNDigits 2 r10 with
                      | none => none
                      | some (s, r11) =>
                        if 1 ≤ mo ∧ mo ≤ 12 ∧ 1 ≤ d ∧ d ≤ 31 ∧ h ≤ 23 ∧ mi ≤ 59 ∧ s ≤ 61
                        then some (⟨y, mo, d, h, mi, s, none⟩, r11)
                        else none

/-- A %z timezone offset, modelled as sign plus four digits (HHMM). -/
def parseTzOffset : List Char → Option (Int × List Char)
  | '+' :: r =>
    match takeNDigits 2 r with
    | none => none
    | some (h, r1) =>
      match takeNDigits 2 r1 with
      | none => none
      | some (m, r2) => if h ≤ 23 ∧ m ≤ 59 then some ((h * 60 + m : Nat), r2) else none
  | '-' :: r =>
    match takeNDigits 2 r with
    | none => none
    | some (h, r1) =>
      match takeNDigits 2 r1 with
      | none => none
      | some (m, r2) => if h ≤ 23 ∧ m ≤ 59 then some (-((h * 60 + m : Nat) : Int), r2) else none
  | _ => none

/-- pd.to_datetime with format Y-m-d H:M:S plus timezone, errors coerced. -/
def strptimeTz (s : String) : Option PDateTime :=
  match parseDateCore s.toList with
  | none => none
  | some (d, rest) =>
    match parseTzOffset rest with
    | none => none
    | some (tz, r2) => if r2.isEmpty then some { d with tz := some tz } else none

/-- pd.to_datetime with format Y-m-d H:M:S and no timezone, errors coerced. -/
def strptimeNoTz (s : String) : Option PDateTime :=
  match parseDateCore s.toList with
  | none => none
  | some (d, rest) => if rest.isEmpty then some d else none

/-- A bare Y-m-d date, accepted by the permissive parser. -/
def parseDateOnly (s : String) : Option PDateTime :=
  match takeNDigits 4 s.toList with
  | none => none
  | some (y, r1) =>
    match expectCh '-' r1 with
    | none => none
    | some r2 =>
      match takeNDigits 2 r2 with
      | none => none
      | some (mo, r3) =>
        match expectCh '-' r3 with
        | none => none
        | some r4 =>
          match takeNDigits 2 r4 with
          | none => none
          | some (d, r5) =>
            if r5.isEmpty ∧ 1 ≤ mo ∧ mo ≤ 12 ∧ 1 ≤ d ∧ d ≤ 31
            then some ⟨y, mo, d, 0, 0, 0, none⟩ else none

/-- Modelled from the spec: the format-free fallback pd.to_datetime(s,
errors="coerce") is a pandas built-in (not part of this repository); the
spec only requires that unparseable individual values become missing.  It
is modelled as trying the two fixed formats and a bare date. -/
def permissiveDate (s : String) : Option PDateTime :=
  match strptimeNoTz s with
  | some d => some d
  | none =>
    match strptimeTz s with
    | some d => some d
    | none => parseDateOnly s

/-- astype(str) applied to a whole column. -/
def colStrs : Col → List String
  | .numeric vs => vs.map numCellStr
  | .text vs => vs.map textCellStr
  | .dates vs => vs.map dateCellStr

/-- parse_date_series from cleaning.py: try the timezone format on the
whole column; if any value parses, keep that result; otherwise try the
no-timezone format; otherwise fall back to permissive parsing. -/
def parse_date_series (c : Col) : Col :=
  let strs := colStrs c
  let p1 := strs.map strptimeTz
  if p1.any Option.isSome then .dates p1
  else
    let p2 := strs.map strptimeNoTz
    if p2.any Option.isSome then .dates p2
    else .dates (strs.map permissiveDate)

/-! ## drop_units_row_if_present and preprocess -/

/-- The hardcoded column list checked by drop_units_row_if_present. -/
def unitsDetectionCols : List String :=
  ["Club Speed", "Attack Angle", "Launch Angle", "Spin Rate", "Apex Height",
   "Carry Distance", "Total Distance", "Air Density", "Temperature",
   "Air Pressure", "Relative Humidity"]

/-- str() of the first cell of a column (df.iloc[0] then astype(str)). -/
def firstCellStr : Col → String
  | .numeric vs => numCellStr (vs.headD none)
  | .text vs => textCellStr (vs.headD none)
  | .dates vs => dateCellStr (vs.headD none)

/-- drop_units_row_if_present from cleaning.py. -/
def drop_units_row_if_present (df : DataFrame) : DataFrame :=
  if df.nrows = 0 then df
  else
    let candidateCols := unitsDetectionCols.filter (fun c => hasCol df c)
    if candidateCols.isEmpty then df
    else if candidateCols.any (fun c =>
        match getCol df c with
        | some col => matchesUnitsPattern (firstCellStr col)
        | none => false) then
      dropFirstRow df
    else df

def coerceStep (d : DataFrame) (c : String) : DataFrame :=
  match getCol d c with
  | some col => setCol d c (coerce_numeric_series col)
  | none => d

/-- The coercion loop of preprocess over CANDIDATE_NUMERIC. -/
def coerceCandidates (df : DataFrame) : DataFrame :=
  CANDIDATE_NUMERIC.foldl coerceStep df

/-- Column .abs(); in preprocess it is only ever applied to a column that
was just numerically coerced, so the non-numeric cases are unreachable. -/
def absCol : Col → Col
  | .numeric vs => .numeric (vs.map (fun v => v.map (fun x => |x|)))
  | c => c

/-- The derived carry absolute-deviation column of preprocess. -/
def deriveCarryAbs (df : DataFrame) : DataFrame :=
  match getCol df "Carry Deviation Distance" with
  | some col => setCol df "|Carry Dev|" (absCol col)
  | none => df

/-- The derived total absolute-deviation column of preprocess. -/
def deriveTotalAbs (df : DataFrame) : DataFrame :=
  match getCol df "Total Deviation Distance" with
  | some col => setCol df "|Total Dev|" (absCol col)
  | none => df

/-- The two derived absolute-deviation columns of preprocess. -/
def deriveAbsCols (df : DataFrame) : DataFrame :=
  deriveTotalAbs (deriveCarryAbs df)

/-- The Date_parsed derivation of preprocess. -/
def deriveDateCol (df : DataFrame) : DataFrame :=
  match getCol df "Date" with
  | some col => setCol df "Date_parsed" (parse_date_series col)
  | none => df

/-- df["Session"] = session_label. -/
def setSession (df : DataFrame) (lbl : String) : DataFrame :=
  setCol df "Session" (.text (List.replicate df.nrows (some lbl)))

/-- preprocess from cleaning.py. -/
def preprocess (df : DataFrame) (sessionLabel : String) : DataFrame :=
  setSession
    (deriveDateCol (deriveAbsCols (coerceCandidates (drop_units_row_if_present df))))
    sessionLabel

/-! ## classify_side -/

/-- The signed deviation series of classify_side (the helper reading the
chosen column): a missing column yields an all-NaN series; invert negates
(and negating NaN keeps NaN). -/
def signedSeries (df : DataFrame) (col : String) (invert : Bool) : List (Option ℚ) :=
  match getCol df col with
  | none => List.replicate df.nrows none
  | some c =>
    let s := toNumericCol c
    if invert then s.map (Option.map Neg.neg) else s

/-- s.abs() <= b on a float cell: a NaN comparison is False in numpy. -/
def optAbsLe (v : Option ℚ) (b : ℚ) : Bool :=
  match v with
  | some x => decide (|x| ≤ b)
  | none => false

/-- s > 0 on a float cell: a NaN comparison is False in numpy. -/
def optPos (v : Option ℚ) : Bool :=
  match v with
  | some x => decide (0 < x)
  | none => false

/-- classify_side from cleaning.py: dead-zone then sign classification,
optional handedness swap, then the pd.Categorical embedding into the
ordered domain Left, Straight, Right (values outside the domain would
become missing). -/
def classify_side (df : DataFrame) (primaryCol : String) (deadZoneDeg : ℚ)
    (handed : String) (invert : Bool) : List (Option String) :=
  let s := signedSeries df primaryCol invert
  let side := s.map (fun v =>
    if optAbsLe v deadZoneDeg then "Straight"
    else if optPos v then "Right" else "Left")
  let side2 := if handed = "Left-handed"
    then side.map (fun t => if t = "Right" then "Left"
      else if t = "Left" then "Right" else t)
    else side
  side2.map (fun t =>
    if t ∈ (["Left", "Straight", "Right"] : List String) then some t else none)

/-! ## iqr_filter (row-oriented numeric view)

The outlier filter only reads numeric columns and selects rows, so the
dataset is modelled as a column-name list plus a list of rows, each row an
association list of float cells. -/

abbrev RowQ := List (String × Option ℚ)

def rowGet : RowQ → String → Option ℚ
  | [], _ => none
  | (m, v) :: rest, c => if m = c then v else rowGet rest c

structure QFrame where
  columns : List String
  rows : List RowQ
deriving DecidableEq, Repr

def insertBy {α : Type} (le : α → α → Bool) (x : α) : List α → List α
  | [] => [x]
  | y :: ys => if le x y then x :: y :: ys else y :: insertBy le x ys

/-- Stable insertion sort under a boolean comparison (the concrete sorting
routine of the embedding; which correct sorting algorithm pandas or numpy
uses is never observable in the claims). -/
def sortBy {α : Type} (le : α → α → Bool) : List α → List α
  | [] => []
  | x :: xs => insertBy le x (sortBy le xs)

/-- Series.quantile with the default linear interpolation, NaN excluded
beforehand; an empty series yields NaN. -/
def quantileVal (xs0 : List ℚ) (q : ℚ) : Option ℚ :=
  let xs := sortBy (fun a b => decide (a ≤ b)) xs0
  match xs with
  | [] => none
  | _ :: _ =>
    let n := xs.length
    let pos : ℚ := q * ((n : ℚ) - 1)
    let i : Nat := (Rat.floor pos).toNat
    let frac : ℚ := pos - (i : ℚ)
    let lo := xs.getD i 0
    let hi := xs.getD (i + 1) lo
    some (lo + frac * (hi - lo))

def colValues (f : QFrame) (c : String) : List (Option ℚ) :=
  f.rows.map (fun r => rowGet r c)

def dropNA (vs : List (Option ℚ)) : List ℚ :=
  vs.filterMap id

/-- The per-column Q1/Q3 computation of iqr_filter, returned only when the
column constrains rows: np.isfinite(iqr) and iqr > 0 (an undefined
quantile stands for a NaN, which is not finite). -/
def iqrStats (f : QFrame) (c : String) : Option (ℚ × ℚ) :=
  match quantileVal (dropNA (colValues f c)) (1 / 4),
        quantileVal (dropNA (colValues f c)) (3 / 4) with
  | some q1, some q3 => if 0 < q3 - q1 then some (q1, q3) else none
  | _, _ => none

/-- The per-column mask contribution of iqr_filter for one row: a missing
column or an inactive IQR imposes no constraint; otherwise the row passes
when its cell is missing or inside the whisker fence. -/
def colCheck (f : QFrame) (c : String) (w : ℚ) (r : RowQ) : Bool :=
  if c ∈ f.columns then
    match iqrStats f c with
    | some (q1, q3) =>
      let iqr := q3 - q1
      match rowGet r c with
      | none => true
      | some x => decide (q1 - w * iqr ≤ x ∧ x ≤ q3 + w * iqr)
    | none => true
  else true

/-- iqr_filter from cleaning.py: the retained-row mask is the conjunction
of the per-column checks, all computed on the incoming dataset. -/
def iqr_filter (f : QFrame) (cols : List String) (whisker : ℚ) : QFrame :=
  ⟨f.columns, f.rows.filter (fun r => cols.all (fun c => colCheck f c whisker r))⟩

/-! ## standardise.py (row-oriented view) -/

abbrev SRow := List (String × Option String)

def srowGet : SRow → String → Option String
  | [], _ => none
  | (m, v) :: rest, c => if m = c then v else srowGet rest c

structure SFrame where
  columns : List String
  rows : List SRow
deriving DecidableEq, Repr

/-- Deterministic seeded selection of n distinct positions, without
replacement: the concrete model of df.sample(n=n, random_state=seed,
replace=False), which numpy makes a deterministic function of the frame,
the size and the seed. -/
def pickSeq {α : Type} : Nat → List α → Nat → List α
  | 0, _, _ => []
  | _ + 1, [], _ => []
  | n + 1, a :: rest, seed =>
    let i := seed % (a :: rest).length
    (a :: rest).get ⟨i, Nat.mod_lt _ (Nat.succ_pos _)⟩ ::
      pickSeq n ((a :: rest).eraseIdx i) (seed * 1103515245 + 12345)

/-- _sample_df from standardise.py: non-positive n or an empty frame give
an empty selection, an n at least the frame size passes the frame through,
otherwise sample n rows without replacement. -/
def sample_df {α : Type} (rows : List α) (n : Nat) (seed : Nat) : List α :=
  if n = 0 ∨ rows.isEmpty then []
  else if rows.length ≤ n then rows
  else pickSeq n rows seed

/-- The stratum key of a row: its cells in the key columns, missing
matching missing (the mask in _stratified_min_pair is equality or
both-isna per component). -/
def keyOf (ks : List String) (r : SRow) : List (Option String) :=
  ks.map (fun c => srowGet r c)

def dedupFirstAux {α : Type} [DecidableEq α] (seen : List α) : List α → List α
  | [] => []
  | a :: rest =>
    if a ∈ seen then dedupFirstAux seen rest
    else a :: dedupFirstAux (a :: seen) rest

/-- drop_duplicates: keep the first occurrence of each value. -/
def dedupFirst {α : Type} [DecidableEq α] (l : List α) : List α :=
  dedupFirstAux [] l

/-- The number of rows of a frame matching a given stratum key. -/
def countKey (rows : List SRow) (ks : List String) (k : List (Option String)) : Nat :=
  (rows.filter (fun r => decide (keyOf ks r = k))).length

/-- _stratified_min_pair from standardise.py: collect the distinct key
tuples of both frames, and per key independently downsample each side to
the minimum of the two matching-row counts, skipping keys where either
side is empty; concatenate the per-key parts. -/
def stratified_min_pair (oldDf newDf : SFrame) (ks : List String) (seed : Nat) :
    SFrame × SFrame :=
  if ks.isEmpty then (oldDf, newDf)
  else
    let keys := dedupFirst (dedupFirst (oldDf.rows.map (keyOf ks)) ++
      dedupFirst (newDf.rows.map (keyOf ks)))
    let gOld := fun k => oldDf.rows.filter (fun r => decide (keyOf ks r = k))
    let gNew := fun k => newDf.rows.filter (fun r => decide (keyOf ks r = k))
    let oldBal := (keys.map (fun k =>
      let t := min (gOld k).length (gNew k).length
      if 0 < t then sample_df (gOld k) t seed else [])).flatten
    let newBal := (keys.map (fun k =>
      let t := min (gOld k).length (gNew k).length
      if 0 < t then sample_df (gNew k) t seed else [])).flatten
    (⟨oldDf.columns, oldBal⟩, ⟨newDf.columns, newBal⟩)

/-- balance_samples from standardise.py. -/
def balance_samples (oldDf newDf : SFrame) (enable : Bool) (mode : String)
    (seed : Nat) : SFrame × SFrame :=
  if ¬ enable then (oldDf, newDf)
  else if oldDf.rows.isEmpty ∨ newDf.rows.isEmpty then (oldDf, newDf)
  else if mode = "Simple" then
    let n := min oldDf.rows.length newDf.rows.length
    (⟨oldDf.columns, sample_df oldDf.rows n seed⟩,
     ⟨newDf.columns, sample_df newDf.rows n seed⟩)
  else if mode = "Stratified: Club Type + Side" then
    let ks := (["Club Type", "Side"] : List String).filter
      (fun c => decide (c ∈ oldDf.columns ∧ c ∈ newDf.columns))
    stratified_min_pair oldDf newDf ks seed
  else (oldDf, newDf)

/-! ## analytics.py -/

/-- One row of a DescriptiveSummary as consumed by compare_sessions
(count and std are not read by the merge). -/
structure SummaryRow where
  metric : String
  mean : Option ℚ
  median : Option ℚ
deriving DecidableEq, Repr

/-- One row of the merged delta table of compare_sessions. -/
structure DeltaRow where
  metric : String
  mean_old : Option ℚ
  median_old : Option ℚ
  mean_new : Option ℚ
  median_new : Option ℚ
  delta : Option ℚ
  pct_change : Option ℚ
  improvement_sign : Option ℚ
deriving DecidableEq, Repr

def optSub (a b : Option ℚ) : Option ℚ :=
  match a, b with
  | some x, some y => some (x - y)
  | _, _ => none

def optMulC (c : ℚ) (a : Option ℚ) : Option ℚ :=
  a.map (fun x => c * x)

/-- Float division on cells; a zero denominator gives a non-finite float,
modelled missing (the call site replaces zeros by NaN beforehand, so the
zero case is unreachable there). -/
def optDiv (a b : Option ℚ) : Option ℚ :=
  match a, b with
  | some x, some y => if y = 0 then none else some (x / y)
  | _, _ => none

/-- Series.replace(0, np.nan) on one cell. -/
def replaceZeroNaN (a : Option ℚ) : Option ℚ :=
  if a = some 0 then none else a

/-- np.sign on a finite float. -/
def qsign (x : ℚ) : Int :=
  if 0 < x then 1 else if x < 0 then -1 else 0

/-- The 1e-9 threshold of compare_sessions. -/
def EPS : ℚ := 1 / 1000000000

/-- The pct_change column: 100 * delta / mean_old where the absolute mean
exceeds the threshold (a NaN mean fails the comparison), NaN elsewhere. -/
def pctChange (meanOld delta : Option ℚ) : Option ℚ :=
  if (match meanOld with
    | some m => decide (EPS < |m|)
    | none => false)
  then optDiv (optMulC 100 delta) (replaceZeroNaN meanOld)
  else none

/-- The _improv row function of compare_sessions: polarity zero (including
unknown metrics) or a non-finite delta give NaN, else sign(delta) times
the polarity. -/
def improvRow (metric : String) (delta : Option ℚ) : Option ℚ :=
  let d := BETTER_DIRECTION metric
  if d = 0 then none
  else match delta with
    | none => none
    | some dl => some ((qsign dl * d : Int) : ℚ)

/-- One merged row with its derived columns. -/
def mkDeltaRow (o n : SummaryRow) : DeltaRow :=
  let delta := optSub n.mean o.mean
  { metric := o.metric, mean_old := o.mean, median_old := o.median,
    mean_new := n.mean, median_new := n.median,
    delta := delta,
    pct_change := pctChange o.mean delta,
    improvement_sign := improvRow o.metric delta }

/-- pd.merge(..., on="Metric", how="inner"): left rows in order, each
paired with every right row of the same metric name. -/
def mergeRows (oldS newS : List SummaryRow) : List DeltaRow :=
  oldS.flatMap (fun o =>
    (newS.filter (fun n => n.metric = o.metric)).map (fun n => mkDeltaRow o n))

/-- Descending comparison on one float sort key with NaN placed last. -/
def optDescLe (x y : Option ℚ) : Bool :=
  match x, y with
  | some a, some b => decide (b ≤ a)
  | some _, none => true
  | none, some _ => false
  | none, none => true

/-- sort_values(by=[improvement_sign, pct_change], ascending=[False,
False]): improvement sign first, percent change as tie-break. -/
def deltaRowLe (a b : DeltaRow) : Bool :=
  if a.improvement_sign = b.improvement_sign
  then optDescLe a.pct_change b.pct_change
  else optDescLe a.improvement_sign b.improvement_sign

/-- compare_sessions from analytics.py (the None-input guard of the Python
wrapper is outside the embedding: inputs here are always data, and the
result is always an explicit table). -/
def compare_sessions (oldS newS : List SummaryRow) : List DeltaRow :=
  if oldS.isEmpty ∨ newS.isEmpty then []
  else
    let m := mergeRows oldS newS
    if m.isEmpty then []
    else sortBy deltaRowLe m

/-! ## Helper lemmas: sorting, sampling -/

theorem insertBy_perm {α : Type} (le : α → α → Bool) (x : α) (l : List α) :
    insertBy le x l ~ x :: l := by
  induction l with
  | nil => exact .refl _
  | cons y ys ih =>
    cases h : le x y with
    | true => simp [insertBy, h]
    | false =>
      simp only [insertBy, h, Bool.false_eq_true, if_false]
      exact (ih.cons y).trans (List.Perm.swap x y ys)

theorem sortBy_perm {α : Type} (le : α → α → Bool) (l : List α) :
    sortBy le l ~ l := by
  induction l with
  | nil => exact .refl _
  | cons x xs ih => exact (insertBy_perm le x (sortBy le xs)).trans (ih.cons x)

theorem mem_sortBy {α : Type} (le : α → α → Bool) (l : List α) (a : α) :
    a ∈ sortBy le l ↔ a ∈ l :=
  (sortBy_perm le l).mem_iff

theorem pickSeq_length {α : Type} :
    ∀ (n : Nat) (l : List α) (s : Nat), (pickSeq n l s).length = min n l.length := by
  intro n
  induction n with
  | zero => intro l s; simp [pickSeq]
  | succ n ih =>
    intro l s
    cases l with
    | nil => simp [pickSeq]
    | cons a rest =>
      have hi : s % (a :: rest).length < (a :: rest).length :=
        Nat.mod_lt _ (Nat.succ_pos _)
      show ((a :: rest).get _ :: pickSeq n ((a :: rest).eraseIdx _) _).length = _
      rw [List.length_cons, ih, List.length_eraseIdx_of_lt hi]
      simp only [List.length_cons]
      omega

theorem pickSeq_subperm {α : Type} [DecidableEq α] :
    ∀ (n : Nat) (l : List α) (s : Nat), pickSeq n l s <+~ l := by
  intro n
  induction n with
  | zero => intro l s; simp [pickSeq]
  | succ n ih =>
    intro l s
    cases l with
    | nil => simp [pickSeq]
    | cons a rest =>
      have key : ∀ (m : Nat) (hm : m < (a :: rest).length) (s' : Nat),
          (a :: rest).get ⟨m, hm⟩ :: pickSeq n ((a :: rest).eraseIdx m) s' <+~ a :: rest := by
        intro m hm s'
        have hperm : (a :: rest).get ⟨m, hm⟩ :: (a :: rest).eraseIdx m ~ a :: rest := by
          rw [List.get_eq_getElem]
          exact ((List.erase_getElem hm).symm.cons _).trans
            (List.perm_cons_erase (List.getElem_mem hm)).symm
        have hsub : (a :: rest).get ⟨m, hm⟩ :: pickSeq n ((a :: rest).eraseIdx m) s' <+~
            (a :: rest).get ⟨m, hm⟩ :: (a :: rest).eraseIdx m :=
          (List.subperm_cons _).mpr (ih _ _)
        exact hsub.trans hperm.subperm
      exact key _ (Nat.mod_lt _ (Nat.succ_pos _)) _

theorem sample_df_length {α : Type} (rows : List α) (n s : Nat) (h : n ≤ rows.length) :
    (sample_df rows n s).length = n := by
  unfold sample_df
  split
  next h0 =>
    rcases h0 with h0 | h0
    · simp [h0]
    · have hl : rows.length = 0 := List.isEmpty_iff_length_eq_zero.mp h0
      simp only [List.length_nil]
      omega
  next h0 =>
    split
    next h1 => omega
    next h1 => rw [pickSeq_length]; omega

theorem sample_df_subperm {α : Type} [DecidableEq α] (rows : List α) (n s : Nat) :
    sample_df rows n s <+~ rows := by
  unfold sample_df
  split
  · exact List.nil_subperm
  · split
    · exact List.Subperm.refl _
    · exact pickSeq_subperm _ _ _

/-! ## Claim theorems -/

/-- C1: the claim says a missing deviation-angle value (or a missing
deviation-angle column) yields a missing side label.  The code disagrees:
NaN fails both numpy comparisons, so the nested np.where sends every
missing input to the final branch, labelling it Left (and the left-handed
swap then relabels it Right).  This theorem evaluates the embedded code at
the failing inputs: a one-row frame whose deviation value is missing, a
one-row frame lacking the deviation column entirely, and the left-handed
variant; none of the produced labels is missing. -/
theorem classify_side_missing_input_labelled_left :
    classify_side ⟨1, [("Carry Deviation Angle", Col.numeric [none])]⟩
        "Carry Deviation Angle" 3 "Right-handed" false = [some "Left"] ∧
    classify_side ⟨1, []⟩ "Carry Deviation Angle" 3 "Right-handed" false
        = [some "Left"] ∧
    classify_side ⟨1, [("Carry Deviation Angle", Col.numeric [none])]⟩
        "Carry Deviation Angle" 3 "Left-handed" false = [some "Right"] := by
  exact ⟨rfl, rfl, rfl⟩

/-- C5: balance_samples is deterministic.  In the embedding the seeded
pandas sampling is a function of the frame, the requested size and the
seed (as numpy guarantees for a fixed random_state), so two invocations
with identical arguments return identical outputs. -/
theorem balance_samples_deterministic (o1 o2 n1 n2 : SFrame) (e1 e2 : Bool)
    (m1 m2 : String) (s1 s2 : Nat)
    (ho : o1 = o2) (hn : n1 = n2) (he : e1 = e2) (hm : m1 = m2) (hs : s1 = s2) :
    balance_samples o1 n1 e1 m1 s1 = balance_samples o2 n2 e2 m2 s2 := by
  subst ho hn he hm hs
  rfl

theorem balance_samples_deterministic_witness :
    balance_samples ⟨["Side"], [[("Side", some "Left")], [("Side", some "Right")]]⟩
        ⟨["Side"], [[("Side", some "Left")]]⟩ true "Simple" 7
      = balance_samples ⟨["Side"], [[("Side", some "Left")], [("Side", some "Right")]]⟩
        ⟨["Side"], [[("Side", some "Left")]]⟩ true "Simple" 7 :=
  balance_samples_deterministic _ _ _ _ _ _ _ _ _ _ rfl rfl rfl rfl rfl

/-- C4: with balancing enabled, mode Simple and both inputs non-empty of
sizes a and b, both outputs have exactly min(a, b) rows and each is a
sub-permutation (sample without replacement) of its input; with balancing
disabled, or either input empty, both inputs pass through unchanged. -/
theorem balance_samples_simple_law (oldDf newDf : SFrame) (seed : Nat) :
    (∀ mode, balance_samples oldDf newDf false mode seed = (oldDf, newDf)) ∧
    (∀ enable mode, oldDf.rows = [] ∨ newDf.rows = [] →
      balance_samples oldDf newDf enable mode seed = (oldDf, newDf)) ∧
    (oldDf.rows ≠ [] → newDf.rows ≠ [] →
      (balance_samples oldDf newDf true "Simple" seed).1.rows.length
          = min oldDf.rows.length newDf.rows.length ∧
      (balance_samples oldDf newDf true "Simple" seed).2.rows.length
          = min oldDf.rows.length newDf.rows.length ∧
      (balance_samples oldDf newDf true "Simple" seed).1.rows <+~ oldDf.rows ∧
      (balance_samples oldDf newDf true "Simple" seed).2.rows <+~ newDf.rows) := by
  refine ⟨?_, ?_, ?_⟩
  · intro mode
    simp [balance_samples]
  · intro enable mode h
    rcases h with h | h <;> cases enable <;> simp [balance_samples, h]
  · intro ho hn
    have ho' : oldDf.rows.isEmpty = false := by
      rw [List.isEmpty_eq_false]
      exact ho
    have hn' : newDf.rows.isEmpty = false := by
      rw [List.isEmpty_eq_false]
      exact hn
    have hb : balance_samples oldDf newDf true "Simple" seed =
        (⟨oldDf.columns, sample_df oldDf.rows
            (min oldDf.rows.length newDf.rows.length) seed⟩,
         ⟨newDf.columns, sample_df newDf.rows
            (min oldDf.rows.length newDf.rows.length) seed⟩) := by
      simp [balance_samples, ho', hn']
    rw [hb]
    exact ⟨sample_df_length _ _ _ (Nat.min_le_left _ _),
      sample_df_length _ _ _ (Nat.min_le_right _ _),
      sample_df_subperm _ _ _, sample_df_subperm _ _ _⟩

theorem balance_samples_simple_law_witness :
    (([[("A", some "x")], [("A", some "y")]] : List SRow) ≠ []) ∧
    (([[("A", some "z")]] : List SRow) ≠ []) ∧
    (balance_samples ⟨["A"], [[("A", some "x")], [("A", some "y")]]⟩
        ⟨["A"], [[("A", some "z")]]⟩ true "Simple" 5).1.rows.length = 1 := by
  refine ⟨by decide, by decide, ?_⟩
  have h := (balance_samples_simple_law ⟨["A"], [[("A", some "x")], [("A", some "y")]]⟩
    ⟨["A"], [[("A", some "z")]]⟩ 5).2.2 (by decide) (by decide)
  exact h.1

/-- C7: compare_sessions on an empty summary on either side, or on two
summaries sharing no metric name, returns the explicitly empty table (it
is a total function: never an exception, never a missing result). -/
theorem compare_sessions_empty_safe (oldS newS : List SummaryRow)
    (h : oldS = [] ∨ newS = [] ∨ ∀ o ∈ oldS, ∀ n ∈ newS, o.metric ≠ n.metric) :
    compare_sessions oldS newS = [] := by
  rcases h with h | h | h
  · simp [compare_sessions, h]
  · simp [compare_sessions, h]
  · have hm : mergeRows oldS newS = [] := by
      rw [mergeRows, List.flatMap_eq_nil_iff]
      intro o homem
      rw [List.map_eq_nil_iff, List.filter_eq_nil_iff]
      intro n hn
      simp only [decide_eq_true_eq]
      exact fun he => h o homem n hn he.symm
    by_cases ho : oldS.isEmpty
    · simp [compare_sessions, ho]
    · by_cases hn : newS.isEmpty
      · simp [compare_sessions, hn]
      · simp [compare_sessions, ho, hn, hm]

theorem compare_sessions_empty_safe_witness :
    compare_sessions [⟨"Club Speed", some 90, some 90⟩]
      [⟨"Ball Speed", some 130, some 130⟩] = [] :=
  compare_sessions_empty_safe _ _ (Or.inr (Or.inr (by decide)))

theorem iqrStats_pos (f : QFrame) (c : String) (p : ℚ × ℚ)
    (h : iqrStats f c = some p) : 0 < p.2 - p.1 := by
  unfold iqrStats at h
  split at h
  next =>
    split at h
    next hpos => cases h; exact hpos
    next => cases h
  next => cases h

theorem colCheck_mono (f : QFrame) (c : String) (w1 w2 : ℚ) (hw : w1 ≤ w2)
    (r : RowQ) (h : colCheck f c w1 r = true) : colCheck f c w2 r = true := by
  unfold colCheck at h ⊢
  by_cases hc : c ∈ f.columns
  · simp only [hc, if_true] at h ⊢
    cases hs : iqrStats f c with
    | none => rfl
    | some p =>
      obtain ⟨q1, q3⟩ := p
      have hiqr : 0 < q3 - q1 := iqrStats_pos f c _ hs
      rw [hs] at h
      cases hr : rowGet r c with
      | none => rfl
      | some x =>
        rw [hr] at h
        dsimp only at h ⊢
        simp only [decide_eq_true_eq] at h ⊢
        have hmul : w1 * (q3 - q1) ≤ w2 * (q3 - q1) :=
          mul_le_mul_of_nonneg_right hw (le_of_lt hiqr)
        constructor
        · linarith [h.1]
        · linarith [h.2]
  · simp [hc]

/-- C8: for whiskers w1 < w2 and any dataset and column list, every row
kept by iqr_filter at w1 is kept at w2 (a column with zero or non-finite
IQR contributes no constraint at either whisker, by colCheck). -/
theorem iqr_filter_monotone (f : QFrame) (cols : List String) (w1 w2 : ℚ)
    (hw : w1 < w2) :
    ∀ r ∈ (iqr_filter f cols w1).rows, r ∈ (iqr_filter f cols w2).rows := by
  intro r hr
  simp only [iqr_filter] at hr ⊢
  rw [List.mem_filter] at hr ⊢
  refine ⟨hr.1, ?_⟩
  have h2 := hr.2
  rw [List.all_eq_true] at h2 ⊢
  intro c hc
  exact colCheck_mono f c w1 w2 (le_of_lt hw) r (h2 c hc)

theorem mem_dedupFirstAux {α : Type} [DecidableEq α] :
    ∀ (l : List α) (seen : List α) (x : α),
      x ∈ dedupFirstAux seen l ↔ x ∈ l ∧ x ∉ seen := by
  intro l
  induction l with
  | nil => intro seen x; simp [dedupFirstAux]
  | cons a rest ih =>
    intro seen x
    unfold dedupFirstAux
    by_cases ha : a ∈ seen
    · rw [if_pos ha, ih]
      constructor
      · rintro ⟨h1, h2⟩
        exact ⟨List.mem_cons_of_mem _ h1, h2⟩
      · rintro ⟨h1, h2⟩
        rcases List.mem_cons.mp h1 with rfl | h1
        · exact absurd ha h2
        · exact ⟨h1, h2⟩
    · rw [if_neg ha, List.mem_cons, ih]
      constructor
      · rintro (rfl | ⟨h1, h2⟩)
        · exact ⟨List.mem_cons_self _ _, ha⟩
        · exact ⟨List.mem_cons_of_mem _ h1,
            fun hs => h2 (List.mem_cons_of_mem a hs)⟩
      · rintro ⟨h1, h2⟩
        rcases List.mem_cons.mp h1 with rfl | h1
        · exact Or.inl rfl
        · by_cases hxa : x = a
          · exact Or.inl hxa
          · refine Or.inr ⟨h1, ?_⟩
            rw [List.mem_cons]
            rintro (h | h)
            · exact hxa h
            · exact h2 h

theorem nodup_dedupFirstAux {α : Type} [DecidableEq α] :
    ∀ (l : List α) (seen : List α), (dedupFirstAux seen l).Nodup := by
  intro l
  induction l with
  | nil => intro seen; simp [dedupFirstAux]
  | cons a rest ih =>
    intro seen
    unfold dedupFirstAux
    by_cases ha : a ∈ seen
    · rw [if_pos ha]
      exact ih _
    · rw [if_neg ha, List.nodup_cons]
      refine ⟨?_, ih _⟩
      rw [mem_dedupFirstAux]
      rintro ⟨_, h2⟩
      exact h2 (List.mem_cons_self _ _)

theorem mem_dedupFirst {α : Type} [DecidableEq α] (l : List α) (x : α) :
    x ∈ dedupFirst l ↔ x ∈ l := by
  unfold dedupFirst
  rw [mem_dedupFirstAux]
  simp

theorem nodup_dedupFirst {α : Type} [DecidableEq α] (l : List α) :
    (dedupFirst l).Nodup :=
  nodup_dedupFirstAux l []

/-- Counting matches of one key inside a concatenation of per-key chunks:
only the chunk of that key contributes, and it contributes whole. -/
theorem count_flatten_chunks (ks : List String) (k : List (Option String))
    (keys : List (List (Option String))) (hnd : keys.Nodup)
    (g : List (Option String) → List SRow)
    (hg : ∀ k' ∈ keys, ∀ r ∈ g k', keyOf ks r = k') :
    (((keys.map g).flatten).filter (fun r => decide (keyOf ks r = k))).length =
      if k ∈ keys then (g k).length else 0 := by
  induction keys with
  | nil => simp
  | cons k' rest ih =>
    rw [List.map_cons, List.flatten_cons, List.filter_append, List.length_append]
    rw [List.nodup_cons] at hnd
    by_cases hkk : k' = k
    · subst hkk
      have h1 : (g k').filter (fun r => decide (keyOf ks r = k')) = g k' := by
        rw [List.filter_eq_self]
        intro r hr
        exact decide_eq_true (hg k' (List.mem_cons_self _ _) r hr)
      have h2 : (((rest.map g).flatten).filter
          (fun r => decide (keyOf ks r = k'))).length = 0 := by
        rw [List.length_eq_zero, List.filter_eq_nil_iff]
        intro r hr
        rw [List.mem_flatten] at hr
        obtain ⟨l, hl, hrl⟩ := hr
        rw [List.mem_map] at hl
        obtain ⟨k2, hk2, rfl⟩ := hl
        simp only [decide_eq_true_eq]
        intro heq
        rw [hg k2 (List.mem_cons_of_mem _ hk2) r hrl] at heq
        exact hnd.1 (heq ▸ hk2)
      rw [h1, h2, if_pos (List.mem_cons_self _ _)]
      omega
    · have h1 : ((g k').filter (fun r => decide (keyOf ks r = k))).length = 0 := by
        rw [List.length_eq_zero, List.filter_eq_nil_iff]
        intro r hr
        simp only [decide_eq_true_eq]
        intro heq
        exact hkk (by rw [← heq, hg k' (List.mem_cons_self _ _) r hr])
      rw [h1, ih hnd.2 (fun k2 h2 => hg k2 (List.mem_cons_of_mem _ h2))]
      have hmemiff : (k ∈ k' :: rest) ↔ (k ∈ rest) := by
        rw [List.mem_cons]
        exact or_iff_right (fun h => hkk h.symm)
      by_cases hk : k ∈ rest
      · rw [if_pos hk, if_pos (hmemiff.mpr hk)]
        omega
      · rw [if_neg hk, if_neg (fun h => hk (hmemiff.mp h))]

theorem stratified_min_pair_group_law (oldDf newDf : SFrame) (ks : List String)
    (seed : Nat) (hksne : ks ≠ []) (k : List (Option String))
    (hk : k ∈ oldDf.rows.map (keyOf ks) ∨ k ∈ newDf.rows.map (keyOf ks)) :
    countKey (stratified_min_pair oldDf newDf ks seed).1.rows ks k
        = min (countKey oldDf.rows ks k) (countKey newDf.rows ks k) ∧
    countKey (stratified_min_pair oldDf newDf ks seed).2.rows ks k
        = min (countKey oldDf.rows ks k) (countKey newDf.rows ks k) := by
  have hne : ks.isEmpty = false := List.isEmpty_eq_false.mpr hksne
  set keys := dedupFirst (dedupFirst (oldDf.rows.map (keyOf ks)) ++
    dedupFirst (newDf.rows.map (keyOf ks))) with hkeysdef
  have hkmem : k ∈ keys := by
    rw [hkeysdef, mem_dedupFirst, List.mem_append, mem_dedupFirst, mem_dedupFirst]
    exact hk
  have hnd : keys.Nodup := nodup_dedupFirst _
  have hb : stratified_min_pair oldDf newDf ks seed =
      (⟨oldDf.columns, (keys.map (fun k' =>
          if 0 < min (oldDf.rows.filter (fun r => decide (keyOf ks r = k'))).length
              (newDf.rows.filter (fun r => decide (keyOf ks r = k'))).length
          then sample_df (oldDf.rows.filter (fun r => decide (keyOf ks r = k')))
            (min (oldDf.rows.filter (fun r => decide (keyOf ks r = k'))).length
              (newDf.rows.filter (fun r => decide (keyOf ks r = k'))).length) seed
          else [])).flatten⟩,
       ⟨newDf.columns, (keys.map (fun k' =>
          if 0 < min (oldDf.rows.filter (fun r => decide (keyOf ks r = k'))).length
              (newDf.rows.filter (fun r => decide (keyOf ks r = k'))).length
          then sample_df (newDf.rows.filter (fun r => decide (keyOf ks r = k')))
            (min (oldDf.rows.filter (fun r => decide (keyOf ks r = k'))).length
              (newDf.rows.filter (fun r => decide (keyOf ks r = k'))).length) seed
          else [])).flatten⟩) := by
    unfold stratified_min_pair
    rw [if_neg (by rw [hne]; simp)]
  have hgO : ∀ k' ∈ keys, ∀ r ∈ (fun k' =>
      if 0 < min (oldDf.rows.filter (fun r => decide (keyOf ks r = k'))).length
          (newDf.rows.filter (fun r => decide (keyOf ks r = k'))).length
      then sample_df (oldDf.rows.filter (fun r => decide (keyOf ks r = k')))
        (min (oldDf.rows.filter (fun r => decide (keyOf ks r = k'))).length
          (newDf.rows.filter (fun r => decide (keyOf ks r = k'))).length) seed
      else []) k', keyOf ks r = k' := by
    intro k' hk' r hr
    dsimp only at hr
    split at hr
    · have hrr := (sample_df_subperm _ _ _).subset hr
      exact of_decide_eq_true (List.mem_filter.mp hrr).2
    · cases hr
  have hgN : ∀ k' ∈ keys, ∀ r ∈ (fun k' =>
      if 0 < min (oldDf.rows.filter (fun r => decide (keyOf ks r = k'))).length
          (newDf.rows.filter (fun r => decide (keyOf ks r = k'))).length
      then sample_df (newDf.rows.filter (fun r => decide (keyOf ks r = k')))
        (min (oldDf.rows.filter (fun r => decide (keyOf ks r = k'))).length
          (newDf.rows.filter (fun r => decide (keyOf ks r = k'))).length) seed
      else []) k', keyOf ks r = k' := by
    intro k' hk' r hr
    dsimp only at hr
    split at hr
    · have hrr := (sample_df_subperm _ _ _).subset hr
      exact of_decide_eq_true (List.mem_filter.mp hrr).2
    · cases hr
  rw [hb]
  constructor
  · unfold countKey
    rw [count_flatten_chunks ks k keys hnd _ hgO, if_pos hkmem]
    by_cases hpos : 0 < min
        (oldDf.rows.filter (fun r => decide (keyOf ks r = k))).length
        (newDf.rows.filter (fun r => decide (keyOf ks r = k))).length
    · rw [if_pos hpos, sample_df_length _ _ _ (Nat.min_le_left _ _)]
    · rw [if_neg hpos]
      simp only [List.length_nil]
      omega
  · unfold countKey
    rw [count_flatten_chunks ks k keys hnd _ hgN, if_pos hkmem]
    by_cases hpos : 0 < min
        (oldDf.rows.filter (fun r => decide (keyOf ks r = k))).length
        (newDf.rows.filter (fun r => decide (keyOf ks r = k))).length
    · rw [if_pos hpos, sample_df_length _ _ _ (Nat.min_le_right _ _)]
    · rw [if_neg hpos]
      simp only [List.length_nil]
      omega

/-- C2: with balancing enabled, both inputs non-empty and the stratified
mode selected, for every key-tuple over the stratification columns (Club
Type and Side, restricted to those present in both inputs, assumed here to
leave at least one key column) observed in either input, the post-balance
row counts for that key-tuple are equal in both outputs and equal to the
minimum of the two matching-row counts (zero-minimum keys contribute no
rows, and no other key can produce rows matching this key). -/
theorem balance_samples_stratified_law (oldDf newDf : SFrame) (seed : Nat)
    (ho : oldDf.rows ≠ []) (hn : newDf.rows ≠ [])
    (ks : List String)
    (hks : ks = (["Club Type", "Side"] : List String).filter
      (fun c => decide (c ∈ oldDf.columns ∧ c ∈ newDf.columns)))
    (hksne : ks ≠ [])
    (k : List (Option String))
    (hk : k ∈ oldDf.rows.map (keyOf ks) ∨ k ∈ newDf.rows.map (keyOf ks)) :
    countKey (balance_samples oldDf newDf true
        "Stratified: Club Type + Side" seed).1.rows ks k
      = min (countKey oldDf.rows ks k) (countKey newDf.rows ks k) ∧
    countKey (balance_samples oldDf newDf true
        "Stratified: Club Type + Side" seed).2.rows ks k
      = min (countKey oldDf.rows ks k) (countKey newDf.rows ks k) := by
  have hbal : balance_samples oldDf newDf true "Stratified: Club Type + Side" seed
      = stratified_min_pair oldDf newDf ks seed := by
    unfold balance_samples
    rw [if_neg (by simp), if_neg ?hemp, if_neg (by decide), if_pos rfl, hks]
    case hemp =>
      rw [not_or]
      constructor
      · rw [List.isEmpty_eq_false.mpr ho]
        simp
      · rw [List.isEmpty_eq_false.mpr hn]
        simp
  rw [hbal]
  exact stratified_min_pair_group_law oldDf newDf ks seed hksne k hk

theorem balance_samples_stratified_law_witness :
    (([[("Club Type", some "Driver"), ("Side", some "Left")],
       [("Club Type", some "Driver"), ("Side", some "Left")],
       [("Club Type", some "Iron"), ("Side", some "Right")]] : List SRow) ≠ []) ∧
    (countKey (balance_samples
        ⟨["Club Type", "Side"],
         [[("Club Type", some "Driver"), ("Side", some "Left")],
          [("Club Type", some "Driver"), ("Side", some "Left")],
          [("Club Type", some "Iron"), ("Side", some "Right")]]⟩
        ⟨["Club Type", "Side"],
         [[("Club Type", some "Driver"), ("Side", some "Left")],
          [("Club Type", some "Iron"), ("Side", some "Right")],
          [("Club Type", some "Iron"), ("Side", some "Right")]]⟩
        true "Stratified: Club Type + Side" 3).1.rows
        ["Club Type", "Side"] [some "Driver", some "Left"]
      = min
        (countKey [[("Club Type", some "Driver"), ("Side", some "Left")],
          [("Club Type", some "Driver"), ("Side", some "Left")],
          [("Club Type", some "Iron"), ("Side", some "Right")]]
          ["Club Type", "Side"] [some "Driver", some "Left"])
        (countKey [[("Club Type", some "Driver"), ("Side", some "Left")],
          [("Club Type", some "Iron"), ("Side", some "Right")],
          [("Club Type", some "Iron"), ("Side", some "Right")]]
          ["Club Type", "Side"] [some "Driver", some "Left"])) :=
  ⟨by decide,
    (balance_samples_stratified_law
      ⟨["Club Type", "Side"],
       [[("Club Type", some "Driver"), ("Side", some "Left")],
        [("Club Type", some "Driver"), ("Side", some "Left")],
        [("Club Type", some "Iron"), ("Side", some "Right")]]⟩
      ⟨["Club Type", "Side"],
       [[("Club Type", some "Driver"), ("Side", some "Left")],
        [("Club Type", some "Iron"), ("Side", some "Right")],
        [("Club Type", some "Iron"), ("Side", some "Right")]]⟩
      3 (by decide) (by decide) ["Club Type", "Side"] (by decide) (by decide)
      [some "Driver", some "Left"] (by decide)).1⟩

theorem toList_mk (cs : List Char) : (String.mk cs).toList = cs := rfl

theorem pyStrip_subset (cs : List Char) : ∀ x ∈ pyStrip cs, x ∈ cs := by
  intro x hx
  unfold pyStrip at hx
  rw [List.mem_reverse] at hx
  have hx2 : x ∈ (cs.dropWhile isPySpace).reverse :=
    (List.dropWhile_sublist _).mem hx
  rw [List.mem_reverse] at hx2
  exact (List.dropWhile_sublist _).mem hx2

theorem matchesUnits_mem_lbracket (s : String) (h : matchesUnitsPattern s = true) :
    '[' ∈ s.toList := by
  unfold matchesUnitsPattern at h
  cases hp : pyStrip s.toList with
  | nil => rw [hp] at h; cases h
  | cons c rest =>
    rw [hp] at h
    have hc : c = '[' := (of_decide_eq_true h).1
    have : c ∈ pyStrip s.toList := by
      rw [hp]
      exact List.mem_cons_self c rest
    rw [hc] at this
    exact pyStrip_subset _ _ this

theorem digitCh_ne_lbracket (n : Nat) : digitCh n ≠ '[' := by
  unfold digitCh
  split <;> decide

theorem natStrAux_no_lbracket : ∀ (f n : Nat), '[' ∉ natStrAux f n := by
  intro f
  induction f with
  | zero => intro n; simp [natStrAux]
  | succ f ih =>
    intro n
    unfold natStrAux
    split
    · intro hmem
      rw [List.mem_singleton] at hmem
      exact digitCh_ne_lbracket n hmem.symm
    · intro hmem
      rw [List.mem_append] at hmem
      rcases hmem with hmem | hmem
      · exact ih _ hmem
      · rw [List.mem_singleton] at hmem
        exact digitCh_ne_lbracket n hmem.symm

theorem numCellStr_no_lbracket (v : Option ℚ) : '[' ∉ (numCellStr v).toList := by
  cases v with
  | none => decide
  | some q =>
    unfold numCellStr ratStr
    rw [toList_mk]
    intro hmem
    rw [List.mem_append, List.mem_append] at hmem
    rcases hmem with (hmem | hmem) | hmem
    · split at hmem
      · rw [List.mem_singleton] at hmem
        cases hmem
      · exact List.not_mem_nil _ hmem
    · exact natStrAux_no_lbracket _ _ (by simpa [natStr] using hmem)
    · split at hmem
      · exact List.not_mem_nil _ hmem
      · rw [List.mem_cons] at hmem
        rcases hmem with hmem | hmem
        · cases hmem
        · exact natStrAux_no_lbracket _ _ (by simpa [natStr] using hmem)

/-- A numerically-coerced (float dtype) column can never trigger the
bracketed-units check: the string form of a float is sign and digits. -/
theorem numeric_first_cell_no_units (vs : List (Option ℚ)) :
    matchesUnitsPattern (firstCellStr (Col.numeric vs)) = false := by
  cases h : matchesUnitsPattern (firstCellStr (Col.numeric vs)) with
  | false => rfl
  | true =>
    exfalso
    exact numCellStr_no_lbracket _ (matchesUnits_mem_lbracket _ h)

theorem drop_units_no_match (df : DataFrame)
    (hall : ∀ c ∈ unitsDetectionCols, ∀ col, getCol df c = some col →
      matchesUnitsPattern (firstCellStr col) = false) :
    drop_units_row_if_present df = df := by
  unfold drop_units_row_if_present
  by_cases h0 : df.nrows = 0
  · simp [h0]
  · rw [if_neg h0]
    by_cases he : (unitsDetectionCols.filter (fun c => hasCol df c)).isEmpty
    · simp [he]
    · have hany : (unitsDetectionCols.filter (fun c => hasCol df c)).any (fun c =>
          match getCol df c with
          | some col => matchesUnitsPattern (firstCellStr col)
          | none => false) = false := by
        rw [List.any_eq_false]
        intro c hc
        rw [List.mem_filter] at hc
        obtain ⟨hc1, hc2⟩ := hc
        cases hcol : getCol df c with
        | none =>
          unfold hasCol at hc2
          rw [hcol] at hc2
          cases hc2
        | some col =>
          simp only [hcol]
          rw [Bool.not_eq_true]
          exact hall c hc1 col hcol
      simp [he, hany]

/-- C3 counterexample: the claim reads the detected column set as the
recognized numeric-candidate catalogue, but the code checks a hardcoded
eleven-column list.  "Ball Speed" is a numeric candidate whose first value
here matches the bracketed-units pattern, yet the first row is not
dropped: the dataset passes through unchanged. -/
theorem drop_units_candidate_claim_false :
    "Ball Speed" ∈ CANDIDATE_NUMERIC ∧
    matchesUnitsPattern (firstCellStr (Col.text [some "[mph]", some "100"])) = true ∧
    drop_units_row_if_present
        ⟨2, [("Ball Speed", Col.text [some "[mph]", some "100"])]⟩ =
      ⟨2, [("Ball Speed", Col.text [some "[mph]", some "100"])]⟩ :=
  ⟨by decide, by decide, by decide⟩

/-- C3 amended: preprocess removes a leading units row exactly when one is
present as judged on the fixed detection columns (Club Speed, Attack
Angle, Launch Angle, Spin Rate, Apex Height, Carry Distance, Total
Distance, Air Density, Temperature, Air Pressure, Relative Humidity), a
strict subset of the numeric-candidate catalogue: if the first-row value
of a present detection column matches the bracketed pattern, the first row
is dropped; if no present detection column matches — in particular when
every present detection column holds ordinary numeric data — the dataset
is unchanged. -/
theorem drop_units_row_spec (df : DataFrame) (h0 : 0 < df.nrows) :
    ((∃ c ∈ unitsDetectionCols, ∃ col, getCol df c = some col ∧
        matchesUnitsPattern (firstCellStr col) = true) →
      drop_units_row_if_present df = dropFirstRow df) ∧
    ((∀ c ∈ unitsDetectionCols, ∀ col, getCol df c = some col →
        matchesUnitsPattern (firstCellStr col) = false) →
      drop_units_row_if_present df = df) ∧
    ((∀ c ∈ unitsDetectionCols, ∀ col, getCol df c = some col →
        ∃ vs, col = Col.numeric vs) →
      drop_units_row_if_present df = df) := by
  refine ⟨?_, drop_units_no_match df, ?_⟩
  · rintro ⟨c, hc, col, hcol, hmatch⟩
    unfold drop_units_row_if_present
    rw [if_neg (by omega)]
    have hmem : c ∈ unitsDetectionCols.filter (fun c => hasCol df c) := by
      rw [List.mem_filter]
      refine ⟨hc, ?_⟩
      unfold hasCol
      rw [hcol]
      rfl
    have hne : (unitsDetectionCols.filter (fun c => hasCol df c)).isEmpty = false := by
      rw [List.isEmpty_eq_false]
      intro hnil
      rw [hnil] at hmem
      exact List.not_mem_nil _ hmem
    have hany : (unitsDetectionCols.filter (fun c => hasCol df c)).any (fun c =>
        match getCol df c with
        | some col => matchesUnitsPattern (firstCellStr col)
        | none => false) = true := by
      rw [List.any_eq_true]
      refine ⟨c, hmem, ?_⟩
      simp only [hcol]
      exact hmatch
    simp [hne, hany]
  · intro hnum
    refine drop_units_no_match df ?_
    intro c hc col hcol
    obtain ⟨vs, rfl⟩ := hnum c hc col hcol
    exact numeric_first_cell_no_units vs

theorem drop_units_row_spec_witness :
    (0 < (2 : Nat)) ∧
    drop_units_row_if_present
        ⟨2, [("Club Speed", Col.text [some "[mph]", some "95"])]⟩ =
      dropFirstRow ⟨2, [("Club Speed", Col.text [some "[mph]", some "95"])]⟩ :=
  ⟨by decide,
    (drop_units_row_spec ⟨2, [("Club Speed", Col.text [some "[mph]", some "95"])]⟩
      (by decide)).1
      ⟨"Club Speed", by decide, Col.text [some "[mph]", some "95"], rfl, by decide⟩⟩

theorem mem_compare_sessions (oldS newS : List SummaryRow) (r : DeltaRow)
    (h : r ∈ compare_sessions oldS newS) :
    ∃ o ∈ oldS, ∃ n ∈ newS, o.metric = n.metric ∧ r = mkDeltaRow o n := by
  simp only [compare_sessions] at h
  split at h
  · exact absurd h (List.not_mem_nil r)
  · split at h
    · exact absurd h (List.not_mem_nil r)
    · rw [mem_sortBy] at h
      unfold mergeRows at h
      rw [List.mem_flatMap] at h
      obtain ⟨o, ho, hmem⟩ := h
      rw [List.mem_map] at hmem
      obtain ⟨n, hn, heq⟩ := hmem
      rw [List.mem_filter] at hn
      exact ⟨o, ho, n, hn.1, (of_decide_eq_true hn.2).symm, heq.symm⟩

theorem improvRow_none (m : String) : improvRow m none = none := by
  unfold improvRow
  dsimp only
  split <;> rfl

theorem improv_cast_eq_one (a : Int) : ((a : ℚ) = 1) ↔ a = 1 := by
  constructor
  · intro h
    exact_mod_cast h
  · intro h
    rw [h]
    norm_num

/-- C6: for every row of the compare_sessions table, improvement_sign is
missing when the metric polarity is zero or the delta is missing, equals
sign(delta) times the polarity when the polarity is non-zero and the delta
is defined, and in particular: for polarity +1 it is +1 exactly when the
new mean exceeds the old mean, and for polarity -1 exactly when the old
mean exceeds the new mean. -/
theorem compare_sessions_improvement_sign (oldS newS : List SummaryRow)
    (r : DeltaRow) (h : r ∈ compare_sessions oldS newS) :
    (BETTER_DIRECTION r.metric = 0 → r.improvement_sign = none) ∧
    (r.delta = none → r.improvement_sign = none) ∧
    (∀ d, r.delta = some d → BETTER_DIRECTION r.metric ≠ 0 →
      r.improvement_sign = some ((qsign d * BETTER_DIRECTION r.metric : Int) : ℚ)) ∧
    (BETTER_DIRECTION r.metric = 1 →
      (r.improvement_sign = some 1 ↔
        ∃ mo mn, r.mean_old = some mo ∧ r.mean_new = some mn ∧ mo < mn)) ∧
    (BETTER_DIRECTION r.metric = -1 →
      (r.improvement_sign = some 1 ↔
        ∃ mo mn, r.mean_old = some mo ∧ r.mean_new = some mn ∧ mn < mo)) := by
  obtain ⟨o, ho, n, hn, hmetric, rfl⟩ := mem_compare_sessions _ _ _ h
  simp only [mkDeltaRow]
  refine ⟨?_, ?_, ?_, ?_, ?_⟩
  · intro h0
    simp [improvRow, h0]
  · intro hd
    rw [hd]
    exact improvRow_none _
  · intro d hd hne
    rw [hd]
    simp [improvRow, hne]
  · intro h1
    cases hmo : o.mean with
    | none => simp [optSub, improvRow, h1, hmo]
    | some mo =>
      cases hmn : n.mean with
      | none => simp [optSub, improvRow, h1, hmo, hmn]
      | some mn =>
        simp only [optSub, improvRow, h1, hmo, hmn, Option.some.injEq]
        rw [if_neg (by norm_num)]
        simp only [Option.some.injEq, mul_one]
        constructor
        · intro hq
          refine ⟨mo, mn, rfl, rfl, ?_⟩
          rw [improv_cast_eq_one] at hq
          unfold qsign at hq
          split at hq
          · next hpos => linarith [hpos]
          · split at hq
            · cases hq
            · cases hq
        · rintro ⟨mo', mn', hmo', hmn', hlt⟩
          cases hmo'
          cases hmn'
          unfold qsign
          rw [if_pos (by linarith)]
          norm_num
  · intro h1
    cases hmo : o.mean with
    | none => simp [optSub, improvRow, h1, hmo]
    | some mo =>
      cases hmn : n.mean with
      | none => simp [optSub, improvRow, h1, hmo, hmn]
      | some mn =>
        simp only [optSub, improvRow, h1, hmo, hmn, Option.some.injEq]
        rw [if_neg (by norm_num)]
        simp only [Option.some.injEq]
        constructor
        · intro hq
          refine ⟨mo, mn, rfl, rfl, ?_⟩
          unfold qsign at hq
          split at hq
          · next hpos =>
            exfalso
            rw [show ((1 : Int) * -1 : Int) = -1 by norm_num] at hq
            norm_num at hq
          · split at hq
            · next hneg => linarith [hneg]
            · exfalso
              rw [show ((0 : Int) * -1 : Int) = 0 by norm_num] at hq
              norm_num at hq
        · rintro ⟨mo', mn', hmo', hmn', hlt⟩
          cases hmo'
          cases hmn'
          unfold qsign
          rw [if_neg (by linarith), if_pos (by linarith)]
          norm_num

theorem compare_sessions_improvement_sign_witness :
    ((⟨"Club Speed", some 90, some 90, some 92, some 92, some 2,
        some (20 / 9), some 1⟩ : DeltaRow) ∈
      compare_sessions [⟨"Club Speed", some 90, some 90⟩]
        [⟨"Club Speed", some 92, some 92⟩]) ∧
    ((⟨"Club Speed", some 90, some 90, some 92, some 92, some 2,
        some (20 / 9), some 1⟩ : DeltaRow).improvement_sign = some 1 ↔
      ∃ mo mn, (⟨"Club Speed", some 90, some 90, some 92, some 92, some 2,
        some (20 / 9), some 1⟩ : DeltaRow).mean_old = some mo ∧
        (⟨"Club Speed", some 90, some 90, some 92, some 92, some 2,
          some (20 / 9), some 1⟩ : DeltaRow).mean_new = some mn ∧ mo < mn) :=
  ⟨by decide,
    (compare_sessions_improvement_sign
      [⟨"Club Speed", some 90, some 90⟩] [⟨"Club Speed", some 92, some 92⟩]
      _ (by decide)).2.2.2.1 (by decide)⟩

/-- C10: for every row of the compare_sessions table, pct_change equals
100 times the delta divided by the old mean whenever the old mean has
absolute value above the 1e-9 threshold, and is missing whenever the old
mean is missing or within the threshold; the computation is a total
function of the inputs (the near-zero denominator is screened out, never
divided by). -/
theorem compare_sessions_pct_change (oldS newS : List SummaryRow)
    (r : DeltaRow) (h : r ∈ compare_sessions oldS newS) :
    (r.mean_old = none → r.pct_change = none) ∧
    (∀ m, r.mean_old = some m → |m| ≤ EPS → r.pct_change = none) ∧
    (∀ m, r.mean_old = some m → EPS < |m| →
      r.pct_change = (optSub r.mean_new r.mean_old).map (fun d => 100 * d / m)) := by
  obtain ⟨o, ho, n, hn, hmetric, rfl⟩ := mem_compare_sessions _ _ _ h
  simp only [mkDeltaRow]
  refine ⟨?_, ?_, ?_⟩
  · intro h0
    simp [pctChange, h0]
  · intro m hm hle
    rw [hm] at *
    simp [pctChange, hm, not_lt.mpr hle]
  · intro m hm hgt
    have hm0 : m ≠ 0 := by
      intro h0
      rw [h0] at hgt
      simp only [abs_zero] at hgt
      have : (0 : ℚ) < EPS := by norm_num [EPS]
      linarith
    rw [hm]
    simp only [pctChange, hm, decide_eq_true_eq, if_pos hgt]
    cases hd : n.mean with
    | none => simp [optSub, optMulC, optDiv]
    | some mn =>
      simp only [optSub, optMulC, optDiv, replaceZeroNaN, Option.map]
      rw [if_neg (by simpa using hm0)]
      simp [hm0]

theorem compare_sessions_pct_change_witness :
    ((⟨"Club Speed", some 90, some 90, some 92, some 92, some 2,
        some (20 / 9), some 1⟩ : DeltaRow).mean_old = some 90) ∧
    (EPS < |(90 : ℚ)|) ∧
    ((⟨"Club Speed", some 90, some 90, some 92, some 92, some 2,
        some (20 / 9), some 1⟩ : DeltaRow).pct_change =
      (optSub (⟨"Club Speed", some 90, some 90, some 92, some 92, some 2,
          some (20 / 9), some 1⟩ : DeltaRow).mean_new
        (⟨"Club Speed", some 90, some 90, some 92, some 92, some 2,
          some (20 / 9), some 1⟩ : DeltaRow).mean_old).map
        (fun d => 100 * d / 90)) :=
  ⟨by decide, by decide,
    (compare_sessions_pct_change
      [⟨"Club Speed", some 90, some 90⟩] [⟨"Club Speed", some 92, some 92⟩]
      _ (by decide)).2.2 90 (by decide) (by decide)⟩

theorem getColList_setColList_self (l : List (String × Col)) (n : String) (c : Col) :
    getColList (setColList l n c) n = some c := by
  induction l with
  | nil => simp [setColList, getColList]
  | cons p rest ih =>
    obtain ⟨m, c0⟩ := p
    unfold setColList
    by_cases h : m = n
    · rw [if_pos h]
      unfold getColList
      rw [if_pos h]
    · rw [if_neg h]
      unfold getColList
      rw [if_neg h]
      exact ih

theorem getColList_setColList_ne (l : List (String × Col)) (n : String) (c : Col)
    (m : String) (h : m ≠ n) :
    getColList (setColList l n c) m = getColList l m := by
  induction l with
  | nil =>
    simp only [setColList, getColList]
    rw [if_neg (fun he => h he.symm)]
  | cons p rest ih =>
    obtain ⟨m0, c0⟩ := p
    unfold setColList
    by_cases h0 : m0 = n
    · rw [if_pos h0]
      unfold getColList
      rw [if_neg (by rw [h0]; exact fun he => h he.symm),
        if_neg (by rw [h0]; exact fun he => h he.symm)]
    · rw [if_neg h0]
      unfold getColList
      by_cases h1 : m0 = m
      · rw [if_pos h1, if_pos h1]
      · rw [if_neg h1, if_neg h1]
        exact ih

theorem setColList_self (l : List (String × Col)) (n : String) (c : Col)
    (h : getColList l n = some c) : setColList l n c = l := by
  induction l with
  | nil => cases h
  | cons p rest ih =>
    obtain ⟨m, c0⟩ := p
    unfold getColList at h
    unfold setColList
    by_cases h0 : m = n
    · rw [if_pos h0] at h
      rw [if_pos h0]
      cases h
      rfl
    · rw [if_neg h0] at h
      rw [if_neg h0, ih h]

theorem getCol_setCol_self (df : DataFrame) (n : String) (c : Col) :
    getCol (setCol df n c) n = some c :=
  getColList_setColList_self df.cols n c

theorem getCol_setCol_ne (df : DataFrame) (n : String) (c : Col)
    (m : String) (h : m ≠ n) :
    getCol (setCol df n c) m = getCol df m :=
  getColList_setColList_ne df.cols n c m h

theorem setCol_self (df : DataFrame) (n : String) (c : Col)
    (h : getCol df n = some c) : setCol df n c = df := by
  unfold setCol
  rw [setColList_self df.cols n c h]

theorem nrows_setCol (df : DataFrame) (n : String) (c : Col) :
    (setCol df n c).nrows = df.nrows := rfl

theorem coerce_output_numeric (col : Col) :
    ∃ vs, coerce_numeric_series col = Col.numeric vs := by
  cases col <;> exact ⟨_, rfl⟩

theorem coerce_numeric_id (vs : List (Option ℚ)) :
    coerce_numeric_series (Col.numeric vs) = Col.numeric vs := rfl

theorem getCol_coerceStep_ne (df : DataFrame) (x c : String) (h : c ≠ x) :
    getCol (coerceStep df x) c = getCol df c := by
  unfold coerceStep
  cases hx : getCol df x with
  | none => rfl
  | some col => exact getCol_setCol_ne df x _ c h

theorem nrows_coerceStep (df : DataFrame) (x : String) :
    (coerceStep df x).nrows = df.nrows := by
  unfold coerceStep
  cases hx : getCol df x <;> rfl

theorem getCol_foldl_coerce_not_mem (L : List String) :
    ∀ (df : DataFrame) (c : String), c ∉ L →
      getCol (L.foldl coerceStep df) c = getCol df c := by
  induction L with
  | nil => intro df c _; rfl
  | cons x rest ih =>
    intro df c hc
    rw [List.mem_cons, not_or] at hc
    rw [List.foldl_cons, ih _ _ hc.2, getCol_coerceStep_ne _ _ _ hc.1]

theorem getCol_foldl_coerce_numeric (L : List String) :
    ∀ (df : DataFrame) (c : String), c ∈ L →
      ∀ col, getCol (L.foldl coerceStep df) c = some col →
        ∃ vs, col = Col.numeric vs := by
  induction L with
  | nil => intro df c hc; cases hc
  | cons x rest ih =>
    intro df c hc col hcol
    rw [List.foldl_cons] at hcol
    by_cases hcr : c ∈ rest
    · exact ih _ _ hcr col hcol
    · rcases List.mem_cons.mp hc with rfl | hcr2
      · rw [getCol_foldl_coerce_not_mem rest _ _ hcr] at hcol
        unfold coerceStep at hcol
        cases hx : getCol df c with
        | none =>
          rw [hx] at hcol
          rw [hx] at hcol
          cases hcol
        | some col0 =>
          rw [hx, getCol_setCol_self] at hcol
          cases hcol
          obtain ⟨vs, hvs⟩ := coerce_output_numeric col0
          exact ⟨vs, hvs⟩
      · exact absurd hcr2 hcr

theorem foldl_coerce_id (L : List String) :
    ∀ (df : DataFrame),
      (∀ c ∈ L, ∀ col, getCol df c = some col → ∃ vs, col = Col.numeric vs) →
      L.foldl coerceStep df = df := by
  induction L with
  | nil => intro df _; rfl
  | cons x rest ih =>
    intro df hall
    rw [List.foldl_cons]
    have hstep : coerceStep df x = df := by
      unfold coerceStep
      cases hx : getCol df x with
      | none => rfl
      | some col =>
        obtain ⟨vs, rfl⟩ := hall x (List.mem_cons_self _ _) col hx
        dsimp only
        rw [coerce_numeric_id]
        exact setCol_self df x _ hx
    rw [hstep]
    exact ih df (fun c hc => hall c (List.mem_cons_of_mem _ hc))

theorem nrows_foldl_coerce (L : List String) :
    ∀ (df : DataFrame), (L.foldl coerceStep df).nrows = df.nrows := by
  induction L with
  | nil => intro df; rfl
  | cons x rest ih =>
    intro df
    rw [List.foldl_cons, ih, nrows_coerceStep]

theorem getCol_deriveCarryAbs_ne (df : DataFrame) (c : String)
    (h : c ≠ "|Carry Dev|") :
    getCol (deriveCarryAbs df) c = getCol df c := by
  unfold deriveCarryAbs
  cases hx : getCol df "Carry Deviation Distance" with
  | none => rfl
  | some col => exact getCol_setCol_ne df _ _ c h

theorem getCol_deriveTotalAbs_ne (df : DataFrame) (c : String)
    (h : c ≠ "|Total Dev|") :
    getCol (deriveTotalAbs df) c = getCol df c := by
  unfold deriveTotalAbs
  cases hx : getCol df "Total Deviation Distance" with
  | none => rfl
  | some col => exact getCol_setCol_ne df _ _ c h

theorem getCol_deriveDateCol_ne (df : DataFrame) (c : String)
    (h : c ≠ "Date_parsed") :
    getCol (deriveDateCol df) c = getCol df c := by
  unfold deriveDateCol
  cases hx : getCol df "Date" with
  | none => rfl
  | some col => exact getCol_setCol_ne df _ _ c h

theorem getCol_setSession_ne (df : DataFrame) (lbl : String) (c : String)
    (h : c ≠ "Session") :
    getCol (setSession df lbl) c = getCol df c :=
  getCol_setCol_ne df _ _ c h

theorem nrows_deriveCarryAbs (df : DataFrame) :
    (deriveCarryAbs df).nrows = df.nrows := by
  unfold deriveCarryAbs
  cases hx : getCol df "Carry Deviation Distance" <;> rfl

theorem nrows_deriveTotalAbs (df : DataFrame) :
    (deriveTotalAbs df).nrows = df.nrows := by
  unfold deriveTotalAbs
  cases hx : getCol df "Total Deviation Distance" <;> rfl

theorem nrows_deriveDateCol (df : DataFrame) :
    (deriveDateCol df).nrows = df.nrows := by
  unfold deriveDateCol
  cases hx : getCol df "Date" <;> rfl

theorem candidate_names_fresh :
    ∀ c ∈ CANDIDATE_NUMERIC, ¬ c = "|Carry Dev|" ∧ ¬ c = "|Total Dev|" ∧
      ¬ c = "Date_parsed" ∧ ¬ c = "Session" := by decide

theorem detection_sub_candidates :
    ∀ c ∈ unitsDetectionCols, c ∈ CANDIDATE_NUMERIC := by decide

theorem getCol_preprocess_candidate (df : DataFrame) (lbl : String) (c : String)
    (hc : c ∈ CANDIDATE_NUMERIC) :
    getCol (preprocess df lbl) c
      = getCol (coerceCandidates (drop_units_row_if_present df)) c := by
  obtain ⟨h1, h2, h3, h4⟩ := candidate_names_fresh c hc
  unfold preprocess deriveAbsCols
  rw [getCol_setSession_ne _ _ _ h4, getCol_deriveDateCol_ne _ _ h3,
    getCol_deriveTotalAbs_ne _ _ h2, getCol_deriveCarryAbs_ne _ _ h1]

theorem preprocess_candidate_numeric (df : DataFrame) (lbl : String) (c : String)
    (hc : c ∈ CANDIDATE_NUMERIC) (col : Col)
    (hcol : getCol (preprocess df lbl) c = some col) :
    ∃ vs, col = Col.numeric vs := by
  rw [getCol_preprocess_candidate df lbl c hc] at hcol
  unfold coerceCandidates at hcol
  exact getCol_foldl_coerce_numeric CANDIDATE_NUMERIC _ c hc col hcol

theorem drop_units_preprocess (df : DataFrame) (lbl : String) :
    drop_units_row_if_present (preprocess df lbl) = preprocess df lbl := by
  apply drop_units_no_match
  intro c hc col hcol
  obtain ⟨vs, rfl⟩ :=
    preprocess_candidate_numeric df lbl c (detection_sub_candidates c hc) col hcol
  exact numeric_first_cell_no_units vs

theorem coerce_preprocess (df : DataFrame) (lbl : String) :
    coerceCandidates (preprocess df lbl) = preprocess df lbl := by
  unfold coerceCandidates
  apply foldl_coerce_id
  intro c hc col hcol
  exact preprocess_candidate_numeric df lbl c hc col hcol

theorem deriveCarryAbs_preprocess (df : DataFrame) (lbl : String) :
    deriveCarryAbs (preprocess df lbl) = preprocess df lbl := by
  have hget : getCol (preprocess df lbl) "Carry Deviation Distance"
      = getCol (coerceCandidates (drop_units_row_if_present df))
          "Carry Deviation Distance" :=
    getCol_preprocess_candidate df lbl _ (by decide)
  unfold deriveCarryAbs
  cases hx : getCol (coerceCandidates (drop_units_row_if_present df))
      "Carry Deviation Distance" with
  | none => rw [hget, hx]
  | some col1 =>
    rw [hget, hx]
    dsimp only
    apply setCol_self
    show getCol (preprocess df lbl) "|Carry Dev|" = some (absCol col1)
    unfold preprocess deriveAbsCols
    rw [getCol_setSession_ne _ _ _ (by decide), getCol_deriveDateCol_ne _ _ (by decide),
      getCol_deriveTotalAbs_ne _ _ (by decide)]
    unfold deriveCarryAbs
    rw [hx]
    dsimp only
    exact getCol_setCol_self _ _ _

theorem deriveTotalAbs_preprocess (df : DataFrame) (lbl : String) :
    deriveTotalAbs (preprocess df lbl) = preprocess df lbl := by
  have hget : getCol (preprocess df lbl) "Total Deviation Distance"
      = getCol (coerceCandidates (drop_units_row_if_present df))
          "Total Deviation Distance" :=
    getCol_preprocess_candidate df lbl _ (by decide)
  unfold deriveTotalAbs
  cases hx : getCol (coerceCandidates (drop_units_row_if_present df))
      "Total Deviation Distance" with
  | none => rw [hget, hx]
  | some col2 =>
    rw [hget, hx]
    dsimp only
    apply setCol_self
    show getCol (preprocess df lbl) "|Total Dev|" = some (absCol col2)
    unfold preprocess deriveAbsCols
    rw [getCol_setSession_ne _ _ _ (by decide), getCol_deriveDateCol_ne _ _ (by decide)]
    unfold deriveTotalAbs
    have hx2 : getCol (deriveCarryAbs (coerceCandidates (drop_units_row_if_present df)))
        "Total Deviation Distance" = some col2 := by
      rw [getCol_deriveCarryAbs_ne _ _ (by decide), hx]
    rw [hx2]
    dsimp only
    exact getCol_setCol_self _ _ _

theorem deriveDateCol_preprocess (df : DataFrame) (lbl : String) :
    deriveDateCol (preprocess df lbl) = preprocess df lbl := by
  have hget : getCol (preprocess df lbl) "Date"
      = getCol (deriveAbsCols (coerceCandidates (drop_units_row_if_present df)))
          "Date" := by
    unfold preprocess
    rw [getCol_setSession_ne _ _ _ (by decide), getCol_deriveDateCol_ne _ _ (by decide)]
  unfold deriveDateCol
  cases hx : getCol (deriveAbsCols (coerceCandidates (drop_units_row_if_present df)))
      "Date" with
  | none => rw [hget, hx]
  | some colD =>
    rw [hget, hx]
    dsimp only
    apply setCol_self
    show getCol (preprocess df lbl) "Date_parsed" = some (parse_date_series colD)
    unfold preprocess
    rw [getCol_setSession_ne _ _ _ (by decide)]
    unfold deriveDateCol
    rw [hx]
    dsimp only
    exact getCol_setCol_self _ _ _

theorem setSession_preprocess (df : DataFrame) (lbl : String) :
    setSession (preprocess df lbl) lbl = preprocess df lbl := by
  unfold setSession
  apply setCol_self
  show getCol (preprocess df lbl) "Session"
    = some (Col.text (List.replicate (preprocess df lbl).nrows (some lbl)))
  unfold preprocess setSession
  rw [getCol_setCol_self, nrows_setCol]

/-- C9: preprocess is idempotent: running it a second time with the same
session label changes nothing.  The units-row check cannot fire again
(every detection column is numeric after coercion, and a stringified float
never matches the bracketed pattern), the numeric coercion is the identity
on already-coerced columns, the derived absolute-deviation columns and the
parsed date are recomputed from unchanged source columns to their stored
values, and the session tag is rewritten with the same label. -/
theorem preprocess_idempotent (df : DataFrame) (lbl : String) :
    preprocess (preprocess df lbl) lbl = preprocess df lbl := by
  have habs : deriveAbsCols (preprocess df lbl) = preprocess df lbl := by
    unfold deriveAbsCols
    rw [deriveCarryAbs_preprocess, deriveTotalAbs_preprocess]
  show setSession (deriveDateCol (deriveAbsCols (coerceCandidates
    (drop_units_row_if_present (preprocess df lbl))))) lbl = preprocess df lbl
  rw [drop_units_preprocess, coerce_preprocess, habs, deriveDateCol_preprocess,
    setSession_preprocess]

theorem iqr_filter_monotone_witness :
    (1 : ℚ) < 2 ∧
    ([("Club Speed", some 1)] : RowQ) ∈
      (iqr_filter ⟨["Club Speed"],
        [[("Club Speed", some 1)], [("Club Speed", some 2)], [("Club Speed", some 3)],
         [("Club Speed", some 4)], [("Club Speed", some 100)]]⟩ ["Club Speed"] 2).rows :=
  ⟨by norm_num,
    iqr_filter_monotone ⟨["Club Speed"],
      [[("Club Speed", some 1)], [("Club Speed", some 2)], [("Club Speed", some 3)],
       [("Club Speed", some 4)], [("Club Speed", some 100)]]⟩ ["Club Speed"] 1 2
      (by norm_num) [("Club Speed", some 1)] (by decide)⟩

end Swingdash
